import Mathlib

/-!
Verification development for the basic_wget repository.

The Go sources are shallowly embedded below: pure helpers of the `path`,
`strings` and `strconv` standard packages are re-implemented over
`List Char`/`String` (ASCII subset, structural recursion so everything
kernel-evaluates), `net/url` is modelled by a `Url` record with a parser
and reference resolution covering the scheme://host/path?query#fragment
subset the mirror code exercises, and the stateful mirror components
(`Parser.processURL`, `Mirror.Start`'s processing goroutine,
`Converter.convertPath`/`convertNode`, `Downloader.downloadResource`,
`parseRateLimit`) become explicit state-passing functions.
-/

namespace Wget

/-! ### Go `strings` helpers (ASCII subset) -/

/-- Boolean list prefix test, used to embed `strings.HasPrefix`. -/
def isPrefL : List Char → List Char → Bool
  | [], _ => true
  | _ :: _, [] => false
  | a :: as, b :: bs => a == b && isPrefL as bs

/-- Embeds `strings.HasPrefix s pre`. -/
def strHasPre (s pre : String) : Bool := isPrefL pre.data s.data

/-- Embeds `strings.HasSuffix s suf`. -/
def goHasSuffix (s suf : String) : Bool := isPrefL suf.data.reverse s.data.reverse

/-- Embeds `strings.ToLower` (ASCII). -/
def goToLower (s : String) : String := String.mk (s.data.map Char.toLower)

/-- Embeds Go string slicing `s[n:]` (ASCII inputs only). -/
def strDrop (s : String) (n : Nat) : String := String.mk (s.data.drop n)

/-- Embeds Go string slicing `s[:len(s)-n]` (ASCII inputs only). -/
def strDropRight (s : String) (n : Nat) : String :=
  String.mk (s.data.take (s.data.length - n))

/-- Split a char list at every occurrence of `c` (like `strings.Split`). -/
def splitCharAll (c : Char) : List Char → List (List Char)
  | [] => [[]]
  | x :: xs =>
    let r := splitCharAll c xs
    if x == c then [] :: r
    else
      match r with
      | [] => [[x]]
      | g :: gs => (x :: g) :: gs

/-- String version of `splitCharAll`. -/
def splitStr (s : String) (c : Char) : List String :=
  (splitCharAll c s.data).map String.mk

/-- Split at the first occurrence of `c`; the separator is dropped.
If `c` does not occur the second component is empty. -/
def splitCharFirst (c : Char) : List Char → List Char × List Char
  | [] => ([], [])
  | x :: xs =>
    if x == c then ([], xs)
    else
      let r := splitCharFirst c xs
      (x :: r.fst, r.snd)

/-- Join strings with a separator (like `strings.Join`). -/
def interc (sep : String) : List String → String
  | [] => ""
  | [x] => x
  | x :: xs => x ++ sep ++ interc sep xs

/-! ### Go `path` package -/

/-- One step of `path.Clean`'s segment processing. -/
def cleanStep (rooted : Bool) (acc : List String) (seg : String) : List String :=
  if seg = "" ∨ seg = "." then acc
  else if seg = ".." then
    match acc.getLast? with
    | some last => if last = ".." then acc ++ [".."] else acc.dropLast
    | none => if rooted then [] else [".."]
  else acc ++ [seg]

/-- Embeds `path.Clean` (lexical cleaning of slash-separated paths). -/
def pathClean (p : String) : String :=
  if p = "" then "."
  else
    let rooted := strHasPre p "/"
    let stack := (splitStr p '/').foldl (cleanStep rooted) []
    let body := interc "/" stack
    if rooted then "/" ++ body
    else if body = "" then "." else body

/-- Embeds `path.Join`: joins the non-empty elements and cleans the result. -/
def pathJoin (elems : List String) : String :=
  let ne := elems.filter (fun e => e != "")
  if ne = [] then "" else pathClean (interc "/" ne)

/-- Embeds `path.Base`: last element after stripping trailing slashes. -/
def pathBase (p : String) : String :=
  if p = "" then "."
  else
    let q := String.mk ((p.data.reverse.dropWhile (fun c => c == '/')).reverse)
    if q = "" then "/"
    else
      match (splitStr q '/').getLast? with
      | some s => s
      | none => q

/-- Helper for `pathExt`: walk the reversed char list collecting the
extension until a dot (found) or a slash / the start (no extension). -/
def extRev (acc : List Char) : List Char → String
  | [] => ""
  | c :: rest =>
    if c == '/' then ""
    else if c == '.' then String.mk ('.' :: acc)
    else extRev (c :: acc) rest

/-- Embeds `path.Ext`: the suffix starting at the final dot of the final
slash-separated element, or `""` when there is no dot. -/
def pathExt (p : String) : String := extRev [] p.data.reverse

/-- Embeds `path.Dir` / `filepath.Dir` (slash paths): everything up to the
final slash, cleaned. -/
def pathDir (p : String) : String :=
  pathClean (String.mk ((p.data.reverse.dropWhile (fun c => c != '/')).reverse))

/-! ### `net/url` model -/

/-- Model of `url.URL` restricted to the fields the mirror code reads:
scheme, host, path, raw query and fragment. -/
structure Url where
  scheme : String
  host : String
  path : String
  query : String
  fragment : String
deriving DecidableEq

/-- Embeds `(*url.URL).IsAbs`. -/
def isAbs (u : Url) : Bool := u.scheme != ""

/-- A character allowed inside a URL scheme. -/
def isSchemeChar (c : Char) : Bool :=
  c.isAlpha || c.isDigit || c == '+' || c == '-' || c == '.'

/-- Detect a leading `scheme://`; returns the scheme and the remainder. -/
def splitScheme (acc : List Char) : List Char → Option (List Char × List Char)
  | [] => none
  | ':' :: '/' :: '/' :: rest => some (acc.reverse, rest)
  | ':' :: _ => none
  | c :: rest => if isSchemeChar c then splitScheme (c :: acc) rest else none

/-- Parse the part after `scheme://`: host up to `/` or `?`, then path and
query. -/
def parseAfterScheme (scheme rest : List Char) : Url :=
  let host := rest.takeWhile (fun c => c != '/' && c != '?')
  let tail := rest.dropWhile (fun c => c != '/' && c != '?')
  match tail with
  | '?' :: qs => ⟨String.mk scheme, String.mk host, "", String.mk qs, ""⟩
  | _ =>
    let pq := splitCharFirst '?' tail
    ⟨String.mk scheme, String.mk host, String.mk pq.fst, String.mk pq.snd, ""⟩

/-- Model of `url.Parse` over the subset of URLs the mirror manipulates
(absolute `scheme://host/path?query#fragment` and schemeless relative
references). The model is total: strings Go would reject (stray control
bytes, bad escapes) are simply read as path characters. -/
def urlParse (s : String) : Url :=
  let hf := splitCharFirst '#' s.data
  let frag := String.mk hf.snd
  match splitScheme [] hf.fst with
  | some (sch, rest) =>
    let u := parseAfterScheme sch rest
    { u with fragment := frag }
  | none =>
    let pq := splitCharFirst '?' hf.fst
    ⟨"", "", String.mk pq.fst, String.mk pq.snd, frag⟩

/-- Embeds `(*url.URL).String` for the modelled subset: the fragment (when
non-empty) is part of the printed form. -/
def urlString (u : Url) : String :=
  (if u.scheme != "" then u.scheme ++ "://" ++ u.host else "")
    ++ u.path
    ++ (if u.query != "" then "?" ++ u.query else "")
    ++ (if u.fragment != "" then "#" ++ u.fragment else "")

/-- One step of RFC 3986 dot-segment removal as done by `url.resolvePath`. -/
def dotStep (acc : List String) (seg : String) : List String :=
  if seg = "." then acc
  else if seg = ".." then acc.dropLast
  else acc ++ [seg]

/-- Dot-segment removal; the result always starts with `/` like Go's
`resolvePath`. -/
def removeDotSegments (p : String) : String :=
  let segs0 := splitStr p '/'
  let segs := if strHasPre p "/" then segs0.drop 1 else segs0
  let stack := segs.foldl dotStep []
  let stack :=
    if segs.getLast? = some "." ∨ segs.getLast? = some ".." then stack ++ [""]
    else stack
  "/" ++ interc "/" stack

/-- Embeds `url.resolvePath base ref`. -/
def resolvePath (base ref : String) : String :=
  let full :=
    if ref = "" then base
    else if strHasPre ref "/" then ref
    else String.mk ((base.data.reverse.dropWhile (fun c => c != '/')).reverse) ++ ref
  if full = "" then "" else removeDotSegments full

/-- Embeds `(*url.URL).ResolveReference` for a reference without scheme or
authority (the only case `processURL` reaches: it resolves only when
`!u.IsAbs()`). -/
def resolveReference (base ref : Url) : Url :=
  { scheme := base.scheme
    host := base.host
    path := resolvePath base.path ref.path
    query := if ref.path = "" ∧ ref.query = "" then base.query else ref.query
    fragment :=
      if ref.path = "" ∧ ref.query = "" ∧ ref.fragment = "" then base.fragment
      else ref.fragment }

/-- The URL `Parser.processURL` works with: parse the raw value and resolve
it against the base when it is relative (parser.go lines 74-82). -/
def resolveRaw (base : Url) (raw : String) : Url :=
  let u := urlParse raw
  if isAbs u then u else resolveReference base u

/-- Canonical URL in the sense of the spec: fragment stripped. -/
def stripFrag (u : Url) : Url := { u with fragment := "" }

/-! ### Mirror data model (mirror/types.go) -/

/-- Embeds `mirror.Config`. -/
structure Config where
  URL : String
  RejectTypes : List String
  ExcludePaths : List String
  ConvertLinks : Bool
  OutputDir : String
deriving DecidableEq

/-- Embeds `mirror.Resource`. -/
structure Resource where
  URL : String
  LocalPath : String
  ContentType : String
  IsHTML : Bool
deriving DecidableEq

/-- State of `mirror.Queue` as observed by the (sequential) processing
goroutine: the buffered channel becomes a FIFO list and the `Processed`
map (keyed by `u.String()`) becomes the list of marked keys. The
`ProcessLock` double-checked locking of parser.go collapses to a single
membership test in this sequential embedding. -/
structure QueueState where
  resources : List Resource
  processed : List String
deriving DecidableEq

/-! ### Parser.processURL (parser.go lines 67-124) -/

/-- The lower-cased, dot-stripped extension `processURL` compares against
the reject list and the `html`/`htm` test (parser.go lines 97-99). -/
def extOf (u : Url) : String :=
  let e := goToLower (pathExt u.path)
  if e != "" then strDrop e 1 else e

/-- The `Resource` literal pushed by `processURL` (parser.go lines 114-118).
Its `LocalPath` depends only on the output directory and the resolved URL. -/
def mkResource (outDir : String) (u : Url) : Resource :=
  ⟨urlString u, pathJoin [outDir, u.host, u.path], "",
    extOf u == "html" || extOf u == "htm"⟩

/-- The part of `Parser.processURL` after URL resolution (parser.go lines
84-123): host filter, exclude-path filter, reject-extension filter, then
the dedup check keyed on `u.String()` and the enqueue. -/
def processAbs (cfg : Config) (base : Url) (q : QueueState) (u : Url) : QueueState :=
  if u.host ≠ base.host then q
  else if cfg.ExcludePaths.any (fun e => strHasPre u.path e) then q
  else if goToLower (pathExt u.path) ≠ "" ∧ cfg.RejectTypes.any (fun rj => extOf u == rj) then q
  else if urlString u ∈ q.processed then q
  else ⟨q.resources ++ [mkResource cfg.OutputDir u],
        q.processed ++ [urlString u]⟩

/-- Embeds `Parser.processURL` (parser.go lines 67-124): empty and
fragment-only raw values are dropped, the value is parsed and resolved
against the base URL, then filtered and possibly enqueued. -/
def processURL (cfg : Config) (base : Url) (q : QueueState) (rawURL : String) : QueueState :=
  if rawURL = "" ∨ strHasPre rawURL "#" = true then q
  else processAbs cfg base q (resolveRaw base rawURL)

/-! ### HTML documents and Parser.Parse (parser.go lines 32-64) -/

/-- Minimal HTML node tree (golang.org/x/net/html documents restricted to
what both traversals read: element name, attributes, children). -/
inductive HNode where
  | text (s : String) : HNode
  | elem (tag : String) (attrs : List (String × String)) (children : List HNode) : HNode

/-- The attribute each traversal inspects per element: `href` for
`a`/`link`, `src` for `img`/`script`, nothing otherwise (the shared
`switch n.Data` of parser.go lines 42-47 and converter.go lines 61-66). -/
def attrKey (tag : String) : String :=
  if tag = "a" ∨ tag = "link" then "href"
  else if tag = "img" ∨ tag = "script" then "src"
  else ""

mutual
/-- Pre-order link extraction of `Parser.Parse`: the first attribute whose
key matches is taken (the `break` in parser.go line 53), then children. -/
def extractNode : HNode → List String
  | HNode.text _ => []
  | HNode.elem tag attrs children =>
    (let key := attrKey tag
     if key ≠ "" then
       match attrs.find? (fun a => a.fst == key) with
       | some a => [a.snd]
       | none => []
     else []) ++ extractNodes children

/-- Extraction over a child list. -/
def extractNodes : List HNode → List String
  | [] => []
  | n :: ns => extractNode n ++ extractNodes ns
end

/-- Embeds `Parser.Parse` feeding `processURL` on every extracted raw
value, in document order. -/
def parseDoc (cfg : Config) (base : Url) (q : QueueState) (doc : HNode) : QueueState :=
  (extractNode doc).foldl (processURL cfg base) q

/-! ### Mirror.Start processing loop (mirror.go lines 118-173) -/

/-- State of the single processing goroutine launched by `Mirror.Start`:
the channel buffer, the `Processed` map, and whether `queue.Resources`
has been closed. The only `close` in the program is the one deferred
inside this same goroutine, which runs only after its `range` loop exits. -/
structure MirrorState where
  buffer : List Resource
  processed : List String
  closed : Bool
deriving DecidableEq

/-- Observable outcome of running the processing goroutine with bounded
fuel. -/
inductive StartOutcome where
  | returned : StartOutcome
  | blocked : StartOutcome
  | outOfFuel : StartOutcome
deriving DecidableEq

/-- Embeds the `for resource := range m.queue.Resources` loop of
`Mirror.Start` (mirror.go lines 139-166). `pages` gives the parsed
document of each fetched URL and `fOk` tells whether its download
succeeded (a failure hits the `continue` on line 144). A `range` over an
empty open channel blocks; it terminates only if the channel is closed.
`ConvertLinks` mutates files, never the queue, so it does not appear. -/
def runStart (cfg : Config) (base : Url) (pages : String → HNode) (fOk : String → Bool) :
    Nat → MirrorState → StartOutcome
  | 0, _ => StartOutcome.outOfFuel
  | Nat.succ fuel, s =>
    match s.buffer with
    | [] => if s.closed then StartOutcome.returned else StartOutcome.blocked
    | r :: rest =>
      if fOk r.URL then
        if r.IsHTML then
          let q := parseDoc cfg base ⟨rest, s.processed⟩ (pages r.URL)
          runStart cfg base pages fOk fuel ⟨q.resources, q.processed, s.closed⟩
        else runStart cfg base pages fOk fuel ⟨rest, s.processed, s.closed⟩
      else runStart cfg base pages fOk fuel ⟨rest, s.processed, s.closed⟩

/-- Embeds the seeding done by `Mirror.Start` before the goroutine runs
(mirror.go lines 120-128): the initial resource uses
`path.Join(OutputDir, path.Base(URL))` and the raw config URL is marked
processed. The channel starts open. -/
def startState (cfg : Config) : MirrorState :=
  ⟨[⟨cfg.URL, pathJoin [cfg.OutputDir, pathBase cfg.URL], "", true⟩],
   [cfg.URL], false⟩

/-! ### Converter (mirror/converter.go) -/

/-- Embeds `Converter.convertPath` (converter.go lines 85-107): empty and
fragment-only values are skipped (`""` means leave unmodified); same-host
absolute URLs become `filepath.Join(OutputDir, Host, Path)`; every other
parsed value is treated as relative and becomes
`filepath.Join(basePath, Path)`. -/
def convertPath (cfg : Config) (base : Url) (rawURL basePath : String) : String :=
  if rawURL = "" ∨ strHasPre rawURL "#" = true then ""
  else
    let u := urlParse rawURL
    if isAbs u then
      if u.host ≠ base.host then ""
      else pathJoin [cfg.OutputDir, u.host, u.path]
    else pathJoin [basePath, u.path]

/-- The attribute-value update performed by `Converter.convertNode`
(converter.go lines 69-75): replace the value only when `convertPath`
returns something non-empty. -/
def convertVal (cfg : Config) (base : Url) (v basePath : String) : String :=
  let np := convertPath cfg base v basePath
  if np ≠ "" then np else v

mutual
/-- Embeds `Converter.convertNode`: rewrite every matching attribute of an
element (no `break` here, unlike the parser), then recurse. -/
def convertNode (cfg : Config) (base : Url) (basePath : String) : HNode → HNode
  | HNode.text s => HNode.text s
  | HNode.elem tag attrs children =>
    let key := attrKey tag
    let attrs' :=
      if key ≠ "" then
        attrs.map (fun a => if a.fst == key then (a.fst, convertVal cfg base a.snd basePath) else a)
      else attrs
    HNode.elem tag attrs' (convertNodes cfg base basePath children)

/-- Conversion over a child list. -/
def convertNodes (cfg : Config) (base : Url) (basePath : String) : List HNode → List HNode
  | [] => []
  | n :: ns => convertNode cfg base basePath n :: convertNodes cfg base basePath ns
end

/-! ### Downloader.downloadResource (downloader.go lines 184-216) -/

/-- Environment abstracting the effects `downloadResource` performs, in
program order: `os.MkdirAll`, `client.Get` (with the response status),
`os.Create`, and `io.Copy`. `body` is the full response body; `written`
is what a failing copy managed to write before erroring. -/
structure FetchEnv where
  mkdirOk : Bool
  getOk : Bool
  status : Nat
  createOk : Bool
  copyOk : Bool
  body : String
  written : String
deriving DecidableEq

/-- A flat filesystem: association list from path to contents. -/
def setFile (fs : List (String × String)) (p v : String) : List (String × String) :=
  (p, v) :: fs.filter (fun e => e.fst != p)

/-- Read back a file from the flat filesystem. -/
def getFile (fs : List (String × String)) (p : String) : Option String :=
  (fs.find? (fun e => e.fst == p)).map Prod.snd

/-- Embeds `Downloader.downloadResource`: mkdir, GET, the
`resp.StatusCode != http.StatusOK` (i.e. 200) check, `os.Create` (which
truncates/creates the file), and `io.Copy`. A failing copy still leaves
the created file holding the bytes written so far. Returns the error (if
any) and the filesystem afterwards. -/
def downloadResource (env : FetchEnv) (r : Resource) (fs : List (String × String)) :
    Option String × List (String × String) :=
  if env.mkdirOk = false then (some "mkdir failed", fs)
  else if env.getOk = false then (some "get failed", fs)
  else if env.status ≠ 200 then (some ("received status code " ++ toString env.status), fs)
  else if env.createOk = false then (some "create failed", fs)
  else if env.copyOk then (none, setFile fs r.LocalPath env.body)
  else (some "copy failed", setFile fs r.LocalPath env.written)

/-! ### parseRateLimit (main.go lines 85-107) -/

/-- Signed 64-bit wrap-around, the behaviour of Go's `int64`
multiplication. -/
def wrap64 (x : Int) : Int := (x + 2 ^ 63) % 2 ^ 64 - 2 ^ 63

/-- Numeric value of a digit list, `none` on a non-digit. -/
def digitsVal (cs : List Char) : Option Nat :=
  cs.foldl
    (fun acc c =>
      match acc with
      | none => none
      | some n => if c.isDigit then some (n * 10 + (c.toNat - 48)) else none)
    (some 0)

/-- Model of `strconv.ParseInt(s, 10, 64)` at the level of its contract:
optional sign, at least one decimal digit, value within the signed 64-bit
range; `none` on a syntax or range error. -/
def parseInt64 (s : String) : Option Int :=
  let sd :=
    match s.data with
    | '+' :: r => (false, r)
    | '-' :: r => (true, r)
    | r => (false, r)
  if sd.snd = [] then none
  else
    match digitsVal sd.snd with
    | none => none
    | some n =>
      let v : Int := if sd.fst then -(n : Int) else (n : Int)
      if v < -(2 ^ 63) ∨ 2 ^ 63 - 1 < v then none else some v

/-- The numeric prefix `parseRateLimit` hands to `strconv.ParseInt`:
lower-cased input with a trailing `k` or `m` removed. -/
def rateNum (s : String) : String :=
  let rl := goToLower s
  if goHasSuffix rl "k" then strDropRight rl 1
  else if goHasSuffix rl "m" then strDropRight rl 1
  else rl

/-- The multiplier `parseRateLimit` applies: 1024 for `k`, 1048576 for
`m`, 1 otherwise. -/
def rateMult (s : String) : Int :=
  let rl := goToLower s
  if goHasSuffix rl "k" then 1024
  else if goHasSuffix rl "m" then 1024 * 1024
  else 1

/-- Embeds `parseRateLimit` (main.go lines 85-107); `none` models the
error return, and the multiplication wraps like Go's `int64`. -/
def parseRateLimit (rateLimit : String) : Option Int :=
  if rateLimit = "" then some 0
  else
    match parseInt64 (rateNum rateLimit) with
    | none => none
    | some rate => some (wrap64 (rate * rateMult rateLimit))

/-! ### Concrete fixtures shared by the theorems -/

/-- A crawl configuration with no filters. -/
def exCfg : Config := ⟨"http://example.test/index.html", [], [], false, "site"⟩

/-- The parsed seed URL of `exCfg`. -/
def exBase : Url := urlParse "http://example.test/index.html"

/-- Same crawl with an upper-case reject entry. -/
def cfgJpgUpper : Config := ⟨"http://example.test/index.html", ["JPG"], [], false, "site"⟩

/-- Same crawl rejecting `jpg` (lower-case, as the CLI would pass it). -/
def cfgJpg : Config := ⟨"http://example.test/index.html", ["jpg"], [], true, "site"⟩

/-- A non-HTML resource used to exercise the downloader model. -/
def exRes : Resource := ⟨"http://example.test/a", "site/example.test/a", "", false⟩

/-! ## Helper lemmas -/

/-- Processing the same resolved URL twice is a no-op the second time:
either a filter discards it both times, or the first pass marked its
`u.String()` key processed. -/
theorem processAbs_idem (cfg : Config) (base : Url) (q : QueueState) (u : Url) :
    processAbs cfg base (processAbs cfg base q u) u = processAbs cfg base q u := by
  by_cases hh : u.host ≠ base.host
  · simp only [processAbs, if_pos hh]
  · by_cases hex : (cfg.ExcludePaths.any fun e => strHasPre u.path e) = true
    · simp only [processAbs, if_neg hh, if_pos hex]
    · by_cases hrj :
        goToLower (pathExt u.path) ≠ "" ∧ (cfg.RejectTypes.any fun rj => extOf u == rj) = true
      · simp only [processAbs, if_neg hh, if_neg hex, if_pos hrj]
      · by_cases hm : urlString u ∈ q.processed
        · simp only [processAbs, if_neg hh, if_neg hex, if_neg hrj, if_pos hm]
        · simp only [processAbs, if_neg hh, if_neg hex, if_neg hrj, if_neg hm]
          rw [if_pos (by simp)]

/-- Everything `processURL` leaves in the queue was there before or is the
`mkResource` of the resolved URL. -/
theorem processURL_mem (cfg : Config) (base : Url) (q : QueueState) (raw : String)
    (r : Resource) (h : r ∈ (processURL cfg base q raw).resources) :
    r ∈ q.resources ∨ r = mkResource cfg.OutputDir (resolveRaw base raw) := by
  by_cases h0 : raw = "" ∨ strHasPre raw "#" = true
  · rw [processURL, if_pos h0] at h
    exact Or.inl h
  · rw [processURL, if_neg h0] at h
    set u := resolveRaw base raw with hu
    by_cases hh : u.host ≠ base.host
    · rw [processAbs, if_pos hh] at h; exact Or.inl h
    · by_cases hex : (cfg.ExcludePaths.any fun e => strHasPre u.path e) = true
      · rw [processAbs, if_neg hh, if_pos hex] at h; exact Or.inl h
      · by_cases hrj :
          goToLower (pathExt u.path) ≠ "" ∧ (cfg.RejectTypes.any fun rj => extOf u == rj) = true
        · rw [processAbs, if_neg hh, if_neg hex, if_pos hrj] at h; exact Or.inl h
        · by_cases hm : urlString u ∈ q.processed
          · rw [processAbs, if_neg hh, if_neg hex, if_neg hrj, if_pos hm] at h; exact Or.inl h
          · rw [processAbs, if_neg hh, if_neg hex, if_neg hrj, if_neg hm] at h
            simp only [List.mem_append, List.mem_singleton] at h
            exact h.imp id id

/-- The processing goroutine never observes a closed channel: no step sets
`closed`, and the deferred `close` runs only after the loop exits. -/
theorem runStart_ne_returned (cfg : Config) (base : Url) (pages : String → HNode)
    (fOk : String → Bool) :
    ∀ (fuel : Nat) (s : MirrorState), s.closed = false →
      runStart cfg base pages fOk fuel s ≠ StartOutcome.returned := by
  intro fuel
  induction fuel with
  | zero => intro s _h hr; exact StartOutcome.noConfusion hr
  | succ n ih =>
    intro s h
    cases hb : s.buffer with
    | nil =>
      simp only [runStart, hb, h]
      exact fun hr => StartOutcome.noConfusion hr
    | cons r rest =>
      simp only [runStart, hb]
      split
      · split
        · exact ih _ h
        · exact ih _ h
      · exact ih _ h

/-! ## Claims -/

/-- C1: the claim says `Mirror.Start`'s processing loop terminates and
`Start` returns for every finite link graph. In the code the only
`close(m.queue.Resources)` is deferred inside the very goroutine that
ranges over the channel, so the `range` can never observe a closed
channel: for every configuration, link graph and fetch oracle the loop
never reaches the `returned` outcome, and on the trivial one-page site it
reaches `blocked` — the goroutine sits on an empty open channel and
`wg.Wait()` in `Start` never returns. -/
theorem c1_start_never_done :
    (∀ (cfg : Config) (base : Url) (pages : String → HNode) (fOk : String → Bool)
        (fuel : Nat),
        runStart cfg base pages fOk fuel (startState cfg) ≠ StartOutcome.returned)
    ∧ runStart exCfg exBase (fun _ => HNode.text "") (fun _ => true) 2 (startState exCfg)
        = StartOutcome.blocked := by
  constructor
  · intro cfg base pages fOk fuel
    exact runStart_ne_returned cfg base pages fOk fuel (startState cfg) rfl
  · decide

/-- C1 witness: the general statement applied to the concrete one-page
crawl. -/
theorem c1_w :
    runStart exCfg exBase (fun _ => HNode.text "") (fun _ => true) 3 (startState exCfg)
      ≠ StartOutcome.returned :=
  c1_start_never_done.1 exCfg exBase (fun _ => HNode.text "") (fun _ => true) 3

/-- C2 counterexample: `page.html` and `page.html#top` resolve to the same
canonical (fragment-stripped) URL, yet the second `processURL` call
pushes a second `Resource`, because the dedup key `u.String()` keeps the
fragment. -/
theorem c2_cex :
    stripFrag (resolveRaw exBase "page.html") = stripFrag (resolveRaw exBase "page.html#top")
    ∧ (processURL exCfg exBase (processURL exCfg exBase (QueueState.mk [] []) "page.html")
        "page.html#top").resources.length = 2 := by
  constructor
  · decide
  · decide

/-- C2 amended: the dedup key is the resolved absolute URL *including* its
fragment — whenever two valid raw values resolve to the same `url.URL`
(fragment and all), the second `processURL` invocation marks nothing new
seen and pushes no new `Resource`. -/
theorem c2_thm (cfg : Config) (base : Url) (q : QueueState) (raw1 raw2 : String)
    (h1 : ¬(raw1 = "" ∨ strHasPre raw1 "#" = true))
    (h2 : ¬(raw2 = "" ∨ strHasPre raw2 "#" = true))
    (hu : resolveRaw base raw1 = resolveRaw base raw2) :
    processURL cfg base (processURL cfg base q raw1) raw2 = processURL cfg base q raw1 := by
  have hinner : processURL cfg base q raw1 = processAbs cfg base q (resolveRaw base raw1) := by
    rw [processURL, if_neg h1]
  rw [processURL, if_neg h2, ← hu, hinner, processAbs_idem]

/-- C2 witness: `page.html` and its already-absolute spelling resolve to
the same URL, and the second call is a no-op. -/
theorem c2_w :
    ¬("page.html" = "" ∨ strHasPre "page.html" "#" = true)
    ∧ ¬("http://example.test/page.html" = "" ∨ strHasPre "http://example.test/page.html" "#" = true)
    ∧ resolveRaw exBase "page.html" = resolveRaw exBase "http://example.test/page.html"
    ∧ processURL exCfg exBase (processURL exCfg exBase (QueueState.mk [] []) "page.html")
        "http://example.test/page.html"
      = processURL exCfg exBase (QueueState.mk [] []) "page.html" :=
  ⟨by decide, by decide, by decide,
   c2_thm exCfg exBase (QueueState.mk [] []) "page.html" "http://example.test/page.html"
     (by decide) (by decide) (by decide)⟩

/-- C3 counterexample: the very same URL gets two different `LocalPath`s —
as the seed, `Mirror.Start` stores it at
`path.Join(OutputDir, path.Base(URL))`, while a run that discovers it as
a link stores it at `path.Join(OutputDir, Host, Path)`. -/
theorem c3_cex :
    (startState exCfg).buffer.map Resource.LocalPath = ["site/index.html"]
    ∧ (processURL exCfg exBase (QueueState.mk [] []) "http://example.test/index.html").resources.map
        Resource.LocalPath = ["site/example.test/index.html"]
    ∧ ("site/index.html" : String) ≠ "site/example.test/index.html" := by
  refine ⟨by decide, by decide, by decide⟩

/-- C3 amended: for link-discovered resources `LocalPath` is indeed a pure
function of the resolved URL and `OutputDir`, namely
`path.Join(OutputDir, Host, Path)`; but the seed resource built by
`Mirror.Start` instead uses `path.Join(OutputDir, path.Base(URL))`, which
in general differs from the link-discovered path of the same URL. -/
theorem c3_thm :
    (∀ (cfg : Config) (base : Url) (q : QueueState) (raw : String) (r : Resource),
        r ∈ (processURL cfg base q raw).resources → r ∉ q.resources →
        r.LocalPath
          = pathJoin [cfg.OutputDir, (resolveRaw base raw).host, (resolveRaw base raw).path])
    ∧ (∀ cfg : Config,
        (startState cfg).buffer.map Resource.LocalPath
          = [pathJoin [cfg.OutputDir, pathBase cfg.URL]]) := by
  constructor
  · intro cfg base q raw r h hn
    rcases processURL_mem cfg base q raw r h with hq | he
    · exact absurd hq hn
    · rw [he]; rfl
  · intro cfg; rfl

/-- C3 witness: the purity half applied to a concretely discovered link. -/
theorem c3_w :
    (mkResource exCfg.OutputDir (resolveRaw exBase "/a.html")
        ∈ (processURL exCfg exBase (QueueState.mk [] []) "/a.html").resources)
    ∧ (mkResource exCfg.OutputDir (resolveRaw exBase "/a.html")).LocalPath
        = pathJoin [exCfg.OutputDir, (resolveRaw exBase "/a.html").host,
            (resolveRaw exBase "/a.html").path] :=
  ⟨by decide,
   c3_thm.1 exCfg exBase (QueueState.mk [] []) "/a.html"
     (mkResource exCfg.OutputDir (resolveRaw exBase "/a.html")) (by decide) (by decide)⟩

/-- C4 counterexample: with the reject set `{JPG}`, the candidate `/a.jpg`
is enqueued even though its extension matches the entry under
case-insensitive comparison — the code lower-cases only the URL's
extension, never the configured entry. -/
theorem c4_cex :
    (processURL cfgJpgUpper exBase (QueueState.mk [] []) "/a.jpg").resources.length = 1
    ∧ goToLower (extOf (resolveRaw exBase "/a.jpg")) = goToLower "JPG"
    ∧ "JPG" ∈ cfgJpgUpper.RejectTypes := by
  refine ⟨by decide, by decide, by decide⟩

/-- C4 amended: `processURL` enqueues only if the resolved host equals the
seed host, the path starts with no configured exclude entry, and the
*lower-cased* extension (when present) is byte-equal to no reject entry —
so matching is case-insensitive in the URL's extension but case-sensitive
in the configured entry. -/
theorem c4_thm (cfg : Config) (base : Url) (q : QueueState) (raw : String)
    (h : (processURL cfg base q raw).resources ≠ q.resources) :
    (resolveRaw base raw).host = base.host
    ∧ (∀ e ∈ cfg.ExcludePaths, strHasPre (resolveRaw base raw).path e = false)
    ∧ (goToLower (pathExt (resolveRaw base raw).path) ≠ "" →
        ∀ rj ∈ cfg.RejectTypes, ¬ extOf (resolveRaw base raw) = rj) := by
  by_cases h0 : raw = "" ∨ strHasPre raw "#" = true
  · rw [processURL, if_pos h0] at h; exact absurd rfl h
  · rw [processURL, if_neg h0] at h
    set u := resolveRaw base raw with hu
    by_cases hh : u.host ≠ base.host
    · rw [processAbs, if_pos hh] at h; exact absurd rfl h
    · by_cases hex : (cfg.ExcludePaths.any fun e => strHasPre u.path e) = true
      · rw [processAbs, if_neg hh, if_pos hex] at h; exact absurd rfl h
      · by_cases hrj :
          goToLower (pathExt u.path) ≠ "" ∧ (cfg.RejectTypes.any fun rj => extOf u == rj) = true
        · rw [processAbs, if_neg hh, if_neg hex, if_pos hrj] at h; exact absurd rfl h
        · refine ⟨not_not.mp hh, ?_, ?_⟩
          · intro e he
            by_contra hc
            exact hex (List.any_eq_true.mpr ⟨e, he, by simpa using hc⟩)
          · intro hne rj hrjm heq
            exact hrj ⟨hne, List.any_eq_true.mpr ⟨rj, hrjm, by simp [heq]⟩⟩

/-- C4 witness: the filter conditions hold for a concretely enqueued
candidate. -/
theorem c4_w :
    ((processURL exCfg exBase (QueueState.mk [] []) "/a.html").resources
        ≠ (QueueState.mk [] []).resources)
    ∧ ((resolveRaw exBase "/a.html").host = exBase.host
        ∧ (∀ e ∈ exCfg.ExcludePaths, strHasPre (resolveRaw exBase "/a.html").path e = false)
        ∧ (goToLower (pathExt (resolveRaw exBase "/a.html").path) ≠ "" →
            ∀ rj ∈ exCfg.RejectTypes, ¬ extOf (resolveRaw exBase "/a.html") = rj)) :=
  ⟨by decide, c4_thm exCfg exBase (QueueState.mk [] []) "/a.html" (by decide)⟩

/-- C8 counterexample: the extensionless path `/about` survives the
filters and is enqueued with `IsHTML = false`, although the claim says
extensionless paths are treated as HTML. -/
theorem c8_cex :
    (processURL exCfg exBase (QueueState.mk [] []) "/about").resources.map Resource.IsHTML
        = [false]
    ∧ pathExt "/about" = "" := by
  refine ⟨by decide, by decide⟩

/-- C8 amended: a surviving candidate is enqueued with `IsHTML = true`
exactly when its lower-cased, dot-stripped extension is `html` or `htm`;
a path with no extension yields `IsHTML = false`. -/
theorem c8_thm (cfg : Config) (base : Url) (q : QueueState) (raw : String) (r : Resource)
    (h : r ∈ (processURL cfg base q raw).resources) (hn : r ∉ q.resources) :
    r.IsHTML
      = (extOf (resolveRaw base raw) == "html" || extOf (resolveRaw base raw) == "htm") := by
  rcases processURL_mem cfg base q raw r h with hq | he
  · exact absurd hq hn
  · rw [he]; rfl

/-- C8 witness: the `IsHTML` formula at a concretely enqueued candidate. -/
theorem c8_w :
    (mkResource exCfg.OutputDir (resolveRaw exBase "/about")
        ∈ (processURL exCfg exBase (QueueState.mk [] []) "/about").resources)
    ∧ (mkResource exCfg.OutputDir (resolveRaw exBase "/about")).IsHTML
        = (extOf (resolveRaw exBase "/about") == "html"
            || extOf (resolveRaw exBase "/about") == "htm") :=
  ⟨by decide,
   c8_thm exCfg exBase (QueueState.mk [] []) "/about"
     (mkResource exCfg.OutputDir (resolveRaw exBase "/about")) (by decide) (by decide)⟩

/-- C5 counterexample: with `jpg` rejected, `img.jpg` is never enqueued
(so never fetched), yet `ConvertLinks` still rewrites the attribute —
`convertPath` consults no fetch information, so the rewritten href points
at a file that was never mirrored. -/
theorem c5_cex :
    processURL cfgJpg exBase (QueueState.mk [] []) "img.jpg" = QueueState.mk [] []
    ∧ convertVal cfgJpg exBase "img.jpg" "site/example.test" ≠ "img.jpg" := by
  refine ⟨by decide, by decide⟩

/-- C5 amended: `convertPath` leaves an attribute untouched exactly for
empty, fragment-only and different-host absolute values; every same-host
absolute value is rewritten to `Join(OutputDir, Host, Path)` and every
other (relative) value to `Join(basePath, Path)`, regardless of whether
the target survived the filters and was fetched. -/
theorem c5_thm (cfg : Config) (base : Url) (v bp : String) :
    ((v = "" ∨ strHasPre v "#" = true
        ∨ (isAbs (urlParse v) = true ∧ (urlParse v).host ≠ base.host)) →
      convertVal cfg base v bp = v)
    ∧ (¬(v = "" ∨ strHasPre v "#" = true) → isAbs (urlParse v) = true →
        (urlParse v).host = base.host →
        convertPath cfg base v bp = pathJoin [cfg.OutputDir, (urlParse v).host, (urlParse v).path])
    ∧ (¬(v = "" ∨ strHasPre v "#" = true) → isAbs (urlParse v) = false →
        convertPath cfg base v bp = pathJoin [bp, (urlParse v).path]) := by
  refine ⟨?_, ?_, ?_⟩
  · intro hcase
    by_cases h0 : v = "" ∨ strHasPre v "#" = true
    · simp [convertVal, convertPath, if_pos h0]
    · rcases hcase with hv | hp | ⟨habs, hhost⟩
      · exact absurd (Or.inl hv) h0
      · exact absurd (Or.inr hp) h0
      · simp [convertVal, convertPath, if_neg h0, habs, if_pos hhost]
  · intro h0 habs hhost
    simp [convertPath, if_neg h0, habs, hhost]
  · intro h0 habs
    simp [convertPath, if_neg h0, habs]

/-- C5 witness: a different-host absolute href is left exactly as
authored. -/
theorem c5_w :
    ("http://other.test/x.html" = "" ∨ strHasPre "http://other.test/x.html" "#" = true
      ∨ (isAbs (urlParse "http://other.test/x.html") = true
          ∧ (urlParse "http://other.test/x.html").host ≠ exBase.host))
    ∧ convertVal exCfg exBase "http://other.test/x.html" "site/example.test"
        = "http://other.test/x.html" :=
  ⟨by decide,
   (c5_thm exCfg exBase "http://other.test/x.html" "site/example.test").1 (by decide)⟩

/-- C6 counterexample: rewriting is not idempotent — the first pass turns
`img.png` into `site/example.test/img.png`, and a second pass joins the
base path on again. -/
theorem c6_cex :
    convertVal exCfg exBase (convertVal exCfg exBase "img.png" "site/example.test")
        "site/example.test"
      ≠ convertVal exCfg exBase "img.png" "site/example.test" := by
  decide

/-- C6 amended: `ConvertLinks` is not idempotent on values it rewrites (a
second pass prepends the base path again, see the counterexample); it is
idempotent exactly on the attribute values it leaves unmodified (empty,
fragment-only, or different-host absolute URLs, i.e. those where
`convertPath` returns the empty string). -/
theorem c6_thm (cfg : Config) (base : Url) (v bp : String)
    (h : convertPath cfg base v bp = "") :
    convertVal cfg base (convertVal cfg base v bp) bp = convertVal cfg base v bp := by
  have hv : convertVal cfg base v bp = v := by simp [convertVal, h]
  rw [hv]
  exact hv

/-- C6 witness: a fragment-only href is a fixed point of the rewrite. -/
theorem c6_w :
    convertPath exCfg exBase "#top" "site" = ""
    ∧ convertVal exCfg exBase (convertVal exCfg exBase "#top" "site") "site"
        = convertVal exCfg exBase "#top" "site" :=
  ⟨by decide, c6_thm exCfg exBase "#top" "site" (by decide)⟩

/-- C7 counterexample: a 204 response is inside the 2xx range, yet
`downloadResource` fails — the code compares against `http.StatusOK`
(exactly 200), not the 2xx range. -/
theorem c7_cex :
    (downloadResource (FetchEnv.mk true true 204 true true "body" "") exRes []).fst ≠ none
    ∧ 200 ≤ 204 ∧ 204 < 300 := by
  refine ⟨by decide, by decide, by decide⟩

/-- C7 amended: with transport and filesystem effects succeeding, the
fetch succeeds exactly when the HTTP status is exactly 200; every other
status — 2xx included — is an error. -/
theorem c7_thm (env : FetchEnv) (r : Resource) (fs : List (String × String))
    (h1 : env.mkdirOk = true) (h2 : env.getOk = true) (h3 : env.createOk = true)
    (h4 : env.copyOk = true) :
    ((downloadResource env r fs).fst = none ↔ env.status = 200) := by
  by_cases hs : env.status = 200
  · simp [downloadResource, h1, h2, h3, h4, hs]
  · simp [downloadResource, h1, h2, h3, h4, hs]

/-- C7 witness: a clean 200 download succeeds. -/
theorem c7_w :
    (FetchEnv.mk true true 200 true true "body" "").mkdirOk = true
    ∧ ((downloadResource (FetchEnv.mk true true 200 true true "body" "") exRes []).fst = none
        ↔ (FetchEnv.mk true true 200 true true "body" "").status = 200) :=
  ⟨rfl, c7_thm (FetchEnv.mk true true 200 true true "body" "") exRes [] rfl rfl rfl rfl⟩

/-- Looking up the path just written returns the written contents. -/
theorem getFile_setFile (fs : List (String × String)) (p v : String) :
    getFile (setFile fs p v) p = some v := by
  simp [getFile, setFile, List.find?]

/-- C9 counterexample: a body copy that fails after `os.Create` leaves the
partial bytes on disk at `LocalPath` while `downloadResource` returns an
error — the error path does not remove the file. -/
theorem c9_cex :
    (downloadResource (FetchEnv.mk true true 200 true false "full body" "par") exRes []).fst
        ≠ none
    ∧ getFile (downloadResource (FetchEnv.mk true true 200 true false "full body" "par")
          exRes []).snd exRes.LocalPath = some "par" := by
  refine ⟨by decide, by decide⟩

/-- C9 amended: error paths reached before `os.Create` (mkdir failure,
network failure, non-200 status) leave the filesystem untouched; but when
the body copy fails after the file was created, the file remains at
`LocalPath` holding the partially written bytes. -/
theorem c9_thm (env : FetchEnv) (r : Resource) (fs : List (String × String)) :
    ((env.mkdirOk = false ∨ env.getOk = false ∨ env.status ≠ 200 ∨ env.createOk = false) →
        (downloadResource env r fs).snd = fs ∧ (downloadResource env r fs).fst ≠ none)
    ∧ (env.mkdirOk = true → env.getOk = true → env.status = 200 → env.createOk = true →
        env.copyOk = false →
        (downloadResource env r fs).fst ≠ none
        ∧ getFile (downloadResource env r fs).snd r.LocalPath = some env.written) := by
  constructor
  · intro hcase
    by_cases hm : env.mkdirOk = false
    · simp [downloadResource, hm]
    · by_cases hg : env.getOk = false
      · simp [downloadResource, hm, hg]
      · by_cases hs : env.status = 200
        · by_cases hc : env.createOk = false
          · simp [downloadResource, hm, hg, hs, hc]
          · rcases hcase with h | h | h | h
            · exact absurd h hm
            · exact absurd h hg
            · exact absurd hs h
            · exact absurd h hc
        · simp [downloadResource, hm, hg, hs]
  · intro h1 h2 h3 h4 h5
    refine ⟨?_, ?_⟩
    · simp [downloadResource, h1, h2, h3, h4, h5]
    · simp only [downloadResource, h1, h2, h3, h4, h5]
      simp [getFile_setFile]

/-- C9 witness: a failed mkdir leaves the filesystem untouched and errors. -/
theorem c9_w :
    ((FetchEnv.mk false true 200 true true "b" "").mkdirOk = false
      ∨ (FetchEnv.mk false true 200 true true "b" "").getOk = false
      ∨ (FetchEnv.mk false true 200 true true "b" "").status ≠ 200
      ∨ (FetchEnv.mk false true 200 true true "b" "").createOk = false)
    ∧ ((downloadResource (FetchEnv.mk false true 200 true true "b" "") exRes []).snd = []
        ∧ (downloadResource (FetchEnv.mk false true 200 true true "b" "") exRes []).fst ≠ none) :=
  ⟨by decide, (c9_thm (FetchEnv.mk false true 200 true true "b" "") exRes []).1 (by decide)⟩

/-- C10 counterexample: `9223372036854775808` (2^63) is a decimal integer
— every character is a digit — yet `parseRateLimit` errors, because
`strconv.ParseInt(s, 10, 64)` also fails on values outside the signed
64-bit range. -/
theorem c10_cex :
    parseRateLimit "9223372036854775808" = none
    ∧ ("9223372036854775808".data.all Char.isDigit) = true := by
  refine ⟨by decide, by decide⟩

/-- C10 amended: `parseRateLimit` returns 0 for the empty string; any
other input is lower-cased, a trailing `k`/`m` selects a 1024/1048576
multiplier (so `400K` yields 409600), the remaining prefix goes through
`strconv.ParseInt(_, 10, 64)` — which errors not only on non-integers but
also on integers outside the signed 64-bit range — and the product wraps
like Go's `int64`. -/
theorem c10_thm :
    parseRateLimit "" = some 0
    ∧ parseRateLimit "400K" = some 409600
    ∧ (∀ s : String, s ≠ "" →
        parseRateLimit s = (parseInt64 (rateNum s)).map (fun n => wrap64 (n * rateMult s))) := by
  refine ⟨by decide, by decide, ?_⟩
  intro s hs
  rw [parseRateLimit, if_neg hs]
  cases parseInt64 (rateNum s) <;> rfl

/-- C10 witness: the characterization at the concrete input `5k`. -/
theorem c10_w :
    ("5k" : String) ≠ ""
    ∧ parseRateLimit "5k"
        = (parseInt64 (rateNum "5k")).map (fun n => wrap64 (n * rateMult "5k")) :=
  ⟨by decide, c10_thm.2.2 "5k" (by decide)⟩

end Wget
